import Mathlib

/-!
Verification of the core orchestration logic of the Krafity storyboard app:
the video-job polling state machine (`VideoGenerationManager`), the merge
URL collection (`CanvasToolbar.handleMergeVideos`), and the credential
rotation / resolution degradation retry logic (`angleService.ts`).

Each definition is a shallow embedding of the corresponding TypeScript
source. Strings model JS strings; `Nat` models non-negative JS numbers;
`Option` models nullable / undefined values; `Except String` models
thrown errors (carrying the error message, as `formatError` renders it).
-/

/-! ## String helpers (models of JS `String.prototype.includes` and
`String.prototype.toLowerCase` as used on the ASCII error messages). -/

/-- Model of JS `toLowerCase` (character-wise lowering suffices for the
ASCII patterns the classifiers search for). -/
def strToLower (s : String) : String :=
  String.mk (s.data.map Char.toLower)

/-- Whether `pat` occurs at the head of `s` (helper for substring search). -/
def headMatch : List Char → List Char → Bool
  | [], _ => true
  | _ :: _, [] => false
  | a :: as, b :: bs => a == b && headMatch as bs

/-- Whether `pat` occurs anywhere in `s` (model of JS `includes`). -/
def hasSubL (pat : List Char) : List Char → Bool
  | [] => headMatch pat []
  | c :: rest => headMatch pat (c :: rest) || hasSubL pat rest

/-- String-level substring test: model of `s.includes(pat)`. -/
def strHasSub (s pat : String) : Bool :=
  hasSubL pat.data s.data

/-! ## angleService.ts: failure classification -/

/-- Embedding of `isQuotaExhausted` (angleService.ts lines 72-75):
lowercase the formatted message and test the quota substrings. -/
def isQuotaExhausted (msg : String) : Bool :=
  let m := strToLower msg
  (strHasSub m "quota" && strHasSub m "exceeded") || strHasSub m "quota exceeded"

/-- Embedding of `isRuntimeOOM` (angleService.ts lines 77-80):
lowercase the formatted message and test the runtime-error substrings. -/
def isRuntimeOOM (msg : String) : Bool :=
  let m := strToLower msg
  strHasSub m "runtimeerror" || strHasSub m "runtime error" || strHasSub m "worker error"

/-! ## angleService.ts: gradioPredict (credential rotation)

An attempt's outcome (connecting a client plus `client.predict`) is
modelled by an environment function `outs : Nat → Except String α`
giving the result of the `attempt`-th iteration's work; errors carry
the `formatError` rendering of the thrown value. -/

/-- The aggregate error message thrown when every token failed
(angleService.ts lines 140-142). `formatError(null)` renders as
`"null"` when the loop body never ran. -/
def aggMsg (totalTokens : Nat) (lastError : Option String) : String :=
  "All " ++ toString totalTokens ++ " HF tokens failed. Last error: " ++
    lastError.getD "null"

/-- Result of a `gradioPredict` run: the token indices used by each
attempt in order, the final rotation cursor (`_currentTokenIndex`), and
the returned value or thrown error message. -/
structure GPState (α : Type) where
  attempts : List Nat
  cursor : Nat
  outcome : Except String α

/-- Embedding of the `for (let attempt = 0; ...)` loop of `gradioPredict`
(angleService.ts lines 109-138), one constructor case per remaining
attempt number. On failure the cached client is evicted (not modelled —
connection results are folded into `outs`) and in BOTH the
quota-exhausted branch (`rotateToken(); continue;`) and the fall-through
branch (`rotateToken();` then end of catch, so the loop continues) the
cursor advances and the next attempt runs. -/
def gpLoop (nTokens : Nat) (outs : Nat → Except String α) :
    List Nat → Nat → Option String → List Nat → GPState α
  | [], cur, lastErr, acc =>
    ⟨acc, cur, Except.error (aggMsg nTokens lastErr)⟩
  | attempt :: rest, cur, lastErr, acc =>
    let idx := cur % nTokens
    match outs attempt with
    | Except.ok v => ⟨acc ++ [idx], cur, Except.ok v⟩
    | Except.error msg =>
      if isQuotaExhausted msg then
        gpLoop nTokens outs rest ((cur + 1) % nTokens) (some msg) (acc ++ [idx])
      else
        gpLoop nTokens outs rest ((cur + 1) % nTokens) (some msg) (acc ++ [idx])

/-- Embedding of `gradioPredict` (angleService.ts lines 95-143): guard
against an empty pool, then try every token one by one. -/
def gradioPredict (nTokens : Nat) (outs : Nat → Except String α)
    (cursor0 : Nat) : GPState α :=
  if nTokens = 0 then
    ⟨[], cursor0,
      Except.error "No HF tokens configured. Add VITE_HF_TOKENS to your .env file."⟩
  else
    gpLoop nTokens outs (List.range nTokens) cursor0 none []

/-! ## angleService.ts: clampDimensions and generateAngleChange -/

/-- Model of `Math.round (num / den)` on non-negative rationals given as
numerator/denominator (JS rounds half up). -/
def jsRound (num den : Nat) : Nat :=
  (2 * num + den) / (2 * den)

/-- Evenization step of `clampDimensions`: an odd value is reduced by one. -/
def evenize (x : Nat) : Nat :=
  if x % 2 = 0 then x else x - 1

/-- Embedding of `clampDimensions` (angleService.ts lines 167-179):
proportional scaling by `maxDim / max w h` with JS `Math.round` when a
dimension exceeds the cap, then forcing both dimensions even. -/
def clampDimensions (w h maxDim : Nat) : Nat × Nat :=
  let m := max w h
  let wh :=
    if w > maxDim || h > maxDim then
      (jsRound (w * maxDim) m, jsRound (h * maxDim) m)
    else (w, h)
  (evenize wh.1, evenize wh.2)

/-- One issued generation request: the cap in force and the width/height
sent to the inference endpoint. -/
structure GenReq where
  cap : Nat
  width : Nat
  height : Nat
  deriving Repr, DecidableEq

/-- Result of a `generateAngleChange` run: the requests issued in order
and the returned output URL or thrown error message. -/
structure GenResult where
  requests : List GenReq
  outcome : Except String String
  deriving Repr

/-- The request issued at cap `c` for source dimensions `dims`. -/
def reqAt (dims : Nat × Nat) (c : Nat) : GenReq :=
  ⟨c, (clampDimensions dims.1 dims.2 c).1, (clampDimensions dims.1 dims.2 c).2⟩

/-- Embedding of the `for (const maxDim of MAX_DIMS)` loop of
`generateAngleChange` (angleService.ts lines 195-229). `capOuts cap`
gives the outcome of the `gradioPredict` call at that cap: `ok u`
models a result whose first data element carries URL `u` (absent when
`none`), `error msg` a thrown error. A missing output URL raises
"No image returned..." inside the try, which its own catch re-examines:
it is not OOM, so it propagates. An OOM-classified error moves on to
the next cap; any other error propagates; an exhausted cap list
re-throws the last error. -/
def genLoop (dims : Nat × Nat) (capOuts : Nat → Except String (Option String)) :
    List Nat → Option String → List GenReq → GenResult
  | [], lastErr, acc => ⟨acc, Except.error (lastErr.getD "null")⟩
  | cap :: rest, lastErr, acc =>
    let acc' := acc ++ [reqAt dims cap]
    match capOuts cap with
    | Except.ok r =>
      match r with
      | some url =>
        if url = "" then
          ⟨acc', Except.error "No image returned from angle generation API"⟩
        else ⟨acc', Except.ok url⟩
      | none => ⟨acc', Except.error "No image returned from angle generation API"⟩
    | Except.error msg =>
      if isRuntimeOOM msg then genLoop dims capOuts rest (some msg) acc'
      else ⟨acc', Except.error msg⟩

/-- The descending cap sequence `MAX_DIMS` (angleService.ts line 192). -/
def MAX_DIMS : List Nat := [1024, 768, 512]

/-- Embedding of `generateAngleChange` (angleService.ts lines 181-230)
from the point where the source dimensions are known, abstracting each
`gradioPredict` call at a cap into `capOuts`. -/
def generateAngleChange (dims : Nat × Nat)
    (capOuts : Nat → Except String (Option String)) : GenResult :=
  genLoop dims capOuts MAX_DIMS none []

/-! ## VideoGenerationManager (the job-polling state machine)

The per-job poll tick (`window.setInterval` callback, part_001 lines
42-135) is embedded as a state transition `processTick`. A call
`processTick jobId resp now st` models the continuation of one tick's
callback from the point its `fetch` resolved with response `resp`
(because the callback awaits the fetch, this continuation can run even
after the interval that scheduled it was cleared — exactly the
overlapping-response situation). -/

/-- The duck-typed `meta` of the watched arrow shape, restricted to the
fields the poll handler reads or writes. -/
structure ArrowMeta where
  jobId : String
  status : String
  videoUrl : Option String
  startTime : Option Nat
  timer : Option Nat
  deriving Repr, DecidableEq

/-- The parsed JSON body of a status response
(`{status, video_url?}`). -/
structure JobData where
  status : String
  video_url : Option String
  deriving Repr, DecidableEq

/-- A poll HTTP response: its status code and its parsed JSON body
(`none` models `response.json()` throwing, e.g. on an empty body). -/
structure PollResponse where
  httpStatus : Nat
  body : Option JobData
  deriving Repr, DecidableEq

/-- The manager state relevant to one job: the active-interval
bookkeeping (`intervalsRef`, as the list of job ids holding a live
interval), the completed-job set (`completedJobsRef`), the watched
arrow (the result of looking up the arrow whose `meta.jobId` matches;
`none` models the shape having been deleted), and a counter of how many
times the completion side effects (the done-meta write, the
context-extraction upload + `addClip`, and the last-frame extraction
onto the downstream frame) have been applied. -/
structure PollState where
  intervals : List String
  completed : List String
  arrow : Option ArrowMeta
  sideEffects : Nat
  deriving Repr, DecidableEq

/-- JS `x || d` on an optional number: `undefined` and `0` are falsy. -/
def jsOrNat (o : Option Nat) (d : Nat) : Nat :=
  match o with
  | some v => if v = 0 then d else v
  | none => d

/-- JS truthiness of an optional string: `undefined` and `""` are falsy. -/
def jsTruthyStr (o : Option String) : Bool :=
  match o with
  | some s => s ≠ ""
  | none => false

/-- Set-insert into the completed-job set (`completedJobsRef.current.add`). -/
def setAdd (x : String) (l : List String) : List String :=
  if x ∈ l then l else l ++ [x]

/-- Embedding of one poll tick of `VideoGenerationManager` (part_001
lines 43-134), mirroring the source order: (1) a response that is not
`ok` and whose status is neither 202 nor 200 clears and removes the
interval; (2) a body that fails to parse throws, and the surrounding
`catch {}` swallows it, leaving the state unchanged; (3) a missing
watched arrow clears and removes the interval; (4) a body with
`status === "done"` and a truthy `video_url` adds the job to the
completed set, clears the interval, writes the done meta onto the
arrow, and fires the completion side effects; (5) otherwise the
elapsed-seconds counter is written only when it changed. -/
def processTick (jobId : String) (resp : PollResponse) (now : Nat)
    (st : PollState) : PollState :=
  let ok : Bool := decide (200 ≤ resp.httpStatus ∧ resp.httpStatus < 300)
  if !ok && resp.httpStatus != 202 && resp.httpStatus != 200 then
    { st with intervals := st.intervals.erase jobId }
  else
    match resp.body with
    | none => st
    | some data =>
      match st.arrow with
      | none => { st with intervals := st.intervals.erase jobId }
      | some meta =>
        if data.status == "done" && jsTruthyStr data.video_url then
          { st with
              completed := setAdd jobId st.completed
              intervals := st.intervals.erase jobId
              arrow := some { meta with status := "done", videoUrl := data.video_url }
              sideEffects := st.sideEffects + 1 }
        else
          let startT := jsOrNat meta.startTime now
          let seconds := (now - startT) / 1000
          let curTimer := jsOrNat meta.timer 0
          if curTimer ≠ seconds then
            { st with arrow := some { meta with timer := some seconds } }
          else st

/-! ## CanvasToolbar.handleMergeVideos (merge URL collection)

`FrameGraph` itself (`reconstructGraph` / `getFramePath`) is not part of
the available sources; only its caller is. Modelled from the spec:
`getFramePath(nodeId)` returns the ordered sequence of nodes from the
tree root down to and including the node (root first), empty when the
node is unknown or disconnected; each node carries a nullable reference
to its incoming arrow (`arrowId`, null for the root). The collection
loop below is embedded from the source (CanvasToolbar.tsx lines 53-81),
quantified over any such path. -/

/-- A node of the frame path as `handleMergeVideos` consumes it: the
frame shape id and the nullable incoming-arrow id. -/
structure PathNode where
  id : String
  arrowId : Option String
  deriving Repr, DecidableEq

/-- The fields of a canvas shape that the collection loop reads:
its `type` and the `videoUrl` / `status` entries of its `meta`. -/
structure ShapeRec where
  stype : String
  videoUrl : Option String
  status : Option String
  deriving Repr, DecidableEq

/-- One iteration of the URL-collection loop (CanvasToolbar.tsx lines
58-71): push the arrow's `videoUrl` when the node has a truthy
`arrowId`, the shape exists and is an arrow, the `videoUrl` is truthy
and the `status` is exactly `"done"`. -/
def collectStep (getShape : String → Option ShapeRec)
    (acc : List String) (node : PathNode) : List String :=
  match node.arrowId with
  | none => acc
  | some aid =>
    if aid = "" then acc
    else
      match getShape aid with
      | none => acc
      | some sh =>
        if sh.stype == "arrow" then
          match sh.videoUrl with
          | some url =>
            if url ≠ "" && sh.status == some "done" then acc ++ [url] else acc
          | none => acc
        else acc

/-- Embedding of the URL-collection loop of `handleMergeVideos`
(CanvasToolbar.tsx lines 55-71): iterate over the path from index 1
(skipping the root), accumulating eligible URLs in order. -/
def collectVideoUrls (getShape : String → Option ShapeRec)
    (path : List PathNode) : List String :=
  (path.drop 1).foldl (collectStep getShape) []

/-- Specification-side description of one node's contribution: the URL
of the node's incoming arrow when that arrow exists on the canvas, is
an arrow shape, carries a truthy media URL and is in terminal-success
state; nothing otherwise. -/
def eligibleUrl (getShape : String → Option ShapeRec)
    (node : PathNode) : Option String :=
  match node.arrowId with
  | none => none
  | some aid =>
    if aid = "" then none
    else
      match getShape aid with
      | none => none
      | some sh =>
        if sh.stype == "arrow" then
          match sh.videoUrl with
          | some url =>
            if url ≠ "" && sh.status == some "done" then some url else none
          | none => none
        else none

/-- The observable outcome of a `handleMergeVideos` invocation, up to
the decision whether to call the merge collaborator. Only `called`
reaches the `POST /api/jobs/video/merge` fetch; every node/edge
creation of the handler sits after that fetch succeeds, so every other
outcome creates nothing and shows a `toast.error` message instead. -/
inductive MergeOutcome where
  | editorNotReady : MergeOutcome
  | noFrameSelected : MergeOutcome
  | noPath : MergeOutcome
  | noVideos : MergeOutcome
  | tooFew : MergeOutcome
  | called : List String → MergeOutcome
  deriving Repr, DecidableEq

/-- Embedding of `handleMergeVideos` (CanvasToolbar.tsx lines 21-94) up
to the merge call: guard on the editor, the selected frame and the
path, collect the URLs, and refuse with a validation toast when none or
fewer than two were collected. `framePath` stands for
`frameGraph.getFramePath` (modelled from the spec, see above). -/
def handleMergeVideos (editorReady : Bool) (selectedFrame : Option String)
    (framePath : String → List PathNode)
    (getShape : String → Option ShapeRec) : MergeOutcome :=
  if !editorReady then MergeOutcome.editorNotReady
  else
    match selectedFrame with
    | none => MergeOutcome.noFrameSelected
    | some fid =>
      let path := framePath fid
      if path.length = 0 then MergeOutcome.noPath
      else
        let videoUrls := collectVideoUrls getShape path
        if videoUrls.length = 0 then MergeOutcome.noVideos
        else if videoUrls.length < 2 then MergeOutcome.tooFew
        else MergeOutcome.called videoUrls

/-- Scalar view of one component of `clampDimensions`: with `m` the
maximum of the source dimensions, a component `x` is proportionally
rounded when `m` exceeds the cap, then evenized. -/
def clampScalar (x m cap : Nat) : Nat :=
  if cap < m then evenize (jsRound (x * cap) m) else evenize x

/-! ## Concrete scenario environments used by claim witnesses -/

/-- The per-cap outcome environment of the degradation scenario: OOM at
1024 and 768, success with `url` at every smaller cap. -/
def degradeOuts (e1 e2 url : String) : Nat → Except String (Option String) :=
  fun cap =>
    if cap = 1024 then Except.error e1
    else if cap = 768 then Except.error e2
    else Except.ok (some url)

/-- A shape store holding a three-clip chain: arrows `a1 a2 a3` done
with URLs `A B C`, and `ae` an errored arrow with URL `B`. -/
def chainShapes : String → Option ShapeRec := fun aid =>
  if aid = "a1" then some ⟨"arrow", some "A", some "done"⟩
  else if aid = "a2" then some ⟨"arrow", some "B", some "done"⟩
  else if aid = "a3" then some ⟨"arrow", some "C", some "done"⟩
  else if aid = "ae" then some ⟨"arrow", some "B", some "error"⟩
  else none

/-- A root-to-leaf path whose three edges carry URLs `A`, `B`, `C`. -/
def chainPath : List PathNode :=
  [⟨"root", none⟩, ⟨"n1", some "a1"⟩, ⟨"n2", some "a2"⟩, ⟨"n3", some "a3"⟩]

/-- The same chain with the middle edge in `error` state. -/
def chainPathErr : List PathNode :=
  [⟨"root", none⟩, ⟨"n1", some "a1"⟩, ⟨"n2", some "ae"⟩, ⟨"n3", some "a3"⟩]

/-- A one-edge path environment (a single completed clip) for the
merge-precondition witness. -/
def onePath : String → List PathNode := fun fid =>
  if fid = "n1" then [⟨"root", none⟩, ⟨"n1", some "a1"⟩] else []

/-! ## Helper lemmas -/

/-- Substring occurrence is preserved by prepending characters. -/
theorem hasSubL_append (pat q s : List Char) (h : hasSubL pat s = true) :
    hasSubL pat (q ++ s) = true := by
  induction q with
  | nil => simpa using h
  | cons c q ih => simp [hasSubL, ih]

/-- String data of a concatenation is the concatenation of data. -/
theorem strData_append (a b : String) : (a ++ b).data = a.data ++ b.data := by
  cases a; cases b; rfl

/-- JS `includes` is preserved by prepending a string. -/
theorem strHasSub_append (q s pat : String) (h : strHasSub s pat = true) :
    strHasSub (q ++ s) pat = true := by
  unfold strHasSub at h ⊢
  rw [strData_append]
  exact hasSubL_append _ _ _ h

/-- Building a string from concatenated character lists is concatenation. -/
theorem strMk_append (x y : List Char) :
    String.mk (x ++ y) = String.mk x ++ String.mk y := rfl

/-- Lowering distributes over concatenation. -/
theorem strToLower_append (a b : String) :
    strToLower (a ++ b) = strToLower a ++ strToLower b := by
  unfold strToLower
  rw [strData_append, List.map_append, strMk_append]

/-- An OOM-classified message stays OOM-classified after prepending any
prefix string (the classifier is a substring test on the lowered text). -/
theorem isRuntimeOOM_append (p m : String) (h : isRuntimeOOM m = true) :
    isRuntimeOOM (p ++ m) = true := by
  unfold isRuntimeOOM at h ⊢
  simp only [strToLower_append]
  simp only [Bool.or_eq_true] at h ⊢
  rcases h with (ha | hb) | hc
  · exact Or.inl (Or.inl (strHasSub_append _ _ _ ha))
  · exact Or.inl (Or.inr (strHasSub_append _ _ _ hb))
  · exact Or.inr (strHasSub_append _ _ _ hc)

/-! ## Claim C1 -/

/-- C1 (refuted; code bug). Running the completion handler twice for the
same job id from two overlapping poll responses applies the completion
side effects twice, not once: after the first done response is processed
the id is in the completed set and the polling loop is cleared, yet the
handler never consults the completed set, so a second in-flight done
response for the same id re-applies the side effects
(`sideEffects` reaches 2). -/
theorem completion_side_effects_reapplied_on_overlap :
    (processTick "j1" ⟨200, some ⟨"done", some "https://x/clip.mp4"⟩⟩ 5000
        ⟨["j1"], [], some ⟨"j1", "pending", none, some 1000, none⟩, 0⟩).completed = ["j1"] ∧
    (processTick "j1" ⟨200, some ⟨"done", some "https://x/clip.mp4"⟩⟩ 5000
        ⟨["j1"], [], some ⟨"j1", "pending", none, some 1000, none⟩, 0⟩).intervals = [] ∧
    (processTick "j1" ⟨200, some ⟨"done", some "https://x/clip.mp4"⟩⟩ 5000
      (processTick "j1" ⟨200, some ⟨"done", some "https://x/clip.mp4"⟩⟩ 5000
        ⟨["j1"], [], some ⟨"j1", "pending", none, some 1000, none⟩, 0⟩)).sideEffects = 2 := by
  decide

/-! ## Claim C3 -/

/-- C3 (refuted; code bug, contradicting the source's own comment "don't
burn other tokens on the same error"): after a failure that is neither
quota-exhausted nor OOM ("Invalid payload"), the catch block rotates the
cursor and falls through to the next loop iteration, so the next
credential IS tried; with a 2-token pool both tokens are attempted
(indices 0 then 1) and the aggregate error is raised instead of the
original error propagating immediately. -/
theorem rotation_tries_next_credential_after_generic_failure :
    (gradioPredict 2 (fun _ => (Except.error "Invalid payload" : Except String Nat)) 0).attempts
        = [0, 1] ∧
    (gradioPredict 2 (fun _ => (Except.error "Invalid payload" : Except String Nat)) 0).outcome
        = Except.error "All 2 HF tokens failed. Last error: Invalid payload" := by
  constructor
  · rfl
  · rfl

/-! ## Claim C4 -/

/-- C4 counterexample. The claim quantifies over every HTTP status
outside {200, 202}, including other 2xx codes; but at status 201 with a
parsed done body the handler does not abandon: the completion side
effects fire on that tick (the abandon guard tests `!response.ok`, and
201 is ok). -/
theorem poll_status_201_fires_completion :
    ¬ ((processTick "j1" ⟨201, some ⟨"done", some "u"⟩⟩ 5000
        ⟨["j1"], [], some ⟨"j1", "pending", none, some 1000, none⟩, 0⟩).sideEffects = 0) := by
  decide

/-- C4 amended: the polling loop abandons (timer cleared, bookkeeping
entry removed, and nothing else — in particular no completion side
effect fires) exactly on responses whose HTTP status is outside the ok
range 200-299; a 2xx status other than 200/202 is processed like 200. -/
theorem poll_abandons_outside_ok_range (jobId : String) (resp : PollResponse)
    (now : Nat) (st : PollState)
    (h : resp.httpStatus < 200 ∨ 300 ≤ resp.httpStatus) :
    processTick jobId resp now st = { st with intervals := st.intervals.erase jobId } := by
  have hcond : (!(decide (200 ≤ resp.httpStatus ∧ resp.httpStatus < 300)) &&
      resp.httpStatus != 202 && resp.httpStatus != 200) = true := by
    simp only [Bool.and_eq_true, bne_iff_ne, Bool.not_eq_true', decide_eq_false_iff_not]
    omega
  unfold processTick
  simp only [hcond, if_true]

/-- C4 amended witness: a 404 response abandons the loop at a concrete
state (interval removed, everything else untouched). -/
theorem poll_abandons_outside_ok_range_witness :
    processTick "j1" ⟨404, some ⟨"done", some "u"⟩⟩ 5000
        ⟨["j1"], [], some ⟨"j1", "pending", none, some 1000, none⟩, 0⟩ =
      ⟨List.erase ["j1"] "j1", [], some ⟨"j1", "pending", none, some 1000, none⟩, 0⟩ :=
  poll_abandons_outside_ok_range "j1" ⟨404, some ⟨"done", some "u"⟩⟩ 5000
    ⟨["j1"], [], some ⟨"j1", "pending", none, some 1000, none⟩, 0⟩ (by decide)

/-! ## Claim C5 -/

/-- C5. On any tick whose response body was parsed but whose watched
arrow no longer exists on the canvas, the loop stops (the interval
bookkeeping entry is removed) and nothing else changes — in particular
no completion side effect fires — even when the response indicates
terminal success with a media URL. -/
theorem poll_stops_on_missing_arrow (jobId : String) (status : Nat)
    (data : JobData) (now : Nat) (st : PollState) (h : st.arrow = none) :
    processTick jobId ⟨status, some data⟩ now st =
      { st with intervals := st.intervals.erase jobId } := by
  unfold processTick
  simp only [h]
  split <;> rfl

/-- C5 witness: a done response with a media URL, processed while the
arrow is gone, only removes the interval entry and fires nothing. -/
theorem poll_stops_on_missing_arrow_witness :
    processTick "j1" ⟨200, some ⟨"done", some "https://x/clip.mp4"⟩⟩ 5000
        ⟨["j1"], [], none, 0⟩ =
      ⟨List.erase ["j1"] "j1", [], none, 0⟩ :=
  poll_stops_on_missing_arrow "j1" 200 ⟨"done", some "https://x/clip.mp4"⟩ 5000
    ⟨["j1"], [], none, 0⟩ rfl

/-! ## Claim C7 -/

/-- C7. With a pool of 3 credentials and the cursor at 0, when attempts
1 and 2 fail quota-exhausted and attempt 3 succeeds, exactly 3 attempts
are made, the credential indices used are 0, 1, 2 in order, and the
successful attempt's result is returned. -/
theorem rotation_pool3_quota_quota_success (r : Nat) :
    gradioPredict 3
        (fun a => if a = 0 then Except.error "quota exceeded"
          else if a = 1 then Except.error "quota exceeded"
          else Except.ok r) 0 =
      ⟨[0, 1, 2], 2, Except.ok r⟩ := rfl

/-- C7 witness at a concrete successful result. -/
theorem rotation_pool3_quota_quota_success_witness :
    gradioPredict 3
        (fun a => if a = 0 then Except.error "quota exceeded"
          else if a = 1 then Except.error "quota exceeded"
          else Except.ok 99) 0 =
      ⟨[0, 1, 2], 2, Except.ok 99⟩ :=
  rotation_pool3_quota_quota_success 99

/-! ## Claim C9 -/

/-- C9. While polling with a non-terminal response and an extant arrow,
the poll handler rewrites the arrow only on ticks where the integer
elapsed-seconds value differs from the stored timer: when they are
equal the whole state is left unchanged, and when they differ the only
change is the timer field of the arrow's meta. -/
theorem poll_timer_update_only_on_change (jobId : String) (status : Nat)
    (data : JobData) (now : Nat) (st : PollState) (meta : ArrowMeta)
    (hok : 200 ≤ status ∧ status < 300)
    (harr : st.arrow = some meta)
    (hnt : (data.status == "done" && jsTruthyStr data.video_url) = false) :
    (jsOrNat meta.timer 0 = (now - jsOrNat meta.startTime now) / 1000 →
        processTick jobId ⟨status, some data⟩ now st = st) ∧
    (jsOrNat meta.timer 0 ≠ (now - jsOrNat meta.startTime now) / 1000 →
        processTick jobId ⟨status, some data⟩ now st =
          { st with arrow := some { meta with
              timer := some ((now - jsOrNat meta.startTime now) / 1000) } }) := by
  have hc1 : (!(decide (200 ≤ status ∧ status < 300)) &&
      (status != 202) && (status != 200)) = false := by
    have : decide (200 ≤ status ∧ status < 300) = true := by
      simp only [decide_eq_true_eq]; exact hok
    simp [this]
  constructor
  · intro heq
    unfold processTick
    simp only [harr, hnt, hc1]
    simp [heq]
  · intro hne
    unfold processTick
    simp only [harr, hnt, hc1]
    simp [hne]

/-- C9 witness: startTime 1000, stored timer 4, now 5999 — elapsed
seconds is 4, equal to the stored timer, and the state is untouched. -/
theorem poll_timer_update_only_on_change_witness :
    processTick "j1" ⟨200, some ⟨"pending", none⟩⟩ 5999
        ⟨["j1"], [], some ⟨"j1", "pending", none, some 1000, some 4⟩, 0⟩ =
      ⟨["j1"], [], some ⟨"j1", "pending", none, some 1000, some 4⟩, 0⟩ :=
  (poll_timer_update_only_on_change "j1" 200 ⟨"pending", none⟩ 5999
      ⟨["j1"], [], some ⟨"j1", "pending", none, some 1000, some 4⟩, 0⟩
      ⟨"j1", "pending", none, some 1000, some 4⟩
      (by decide) rfl (by decide)).1 (by decide)

/-! ## Claim C2 -/

/-- One collection-loop step appends exactly the node's eligible URL. -/
theorem collectStep_eq (gs : String → Option ShapeRec) (acc : List String)
    (node : PathNode) :
    collectStep gs acc node = acc ++ (eligibleUrl gs node).toList := by
  unfold collectStep eligibleUrl
  rcases node with ⟨nid, aid⟩
  cases aid with
  | none => simp
  | some a =>
    by_cases ha : a = ""
    · simp [ha]
    · simp only [ha, if_false]
      cases gs a with
      | none => simp
      | some sh =>
        by_cases ht : sh.stype == "arrow"
        · simp only [ht, if_true]
          cases sh.videoUrl with
          | none => simp
          | some url =>
            by_cases hu : (¬url = "" ∧ sh.status = some "done")
            · simp [hu]
            · simp [hu]
        · simp [ht]

/-- The collection fold equals the accumulated filter-map of per-node
eligible URLs. -/
theorem foldl_collectStep (gs : String → Option ShapeRec) :
    ∀ (l : List PathNode) (acc : List String),
      l.foldl (collectStep gs) acc = acc ++ l.filterMap (eligibleUrl gs) := by
  intro l
  induction l with
  | nil => simp
  | cons x xs ih =>
    intro acc
    rw [List.foldl_cons, collectStep_eq, ih]
    cases helig : eligibleUrl gs x <;> simp [helig, List.filterMap_cons]

/-- C2. The URL list the merge operation collects is exactly the
sequence of media URLs of path edges in terminal-success state carrying
a (truthy) media URL, in root-to-leaf path order, skipping the root's
nonexistent incoming edge; for a chain with done edges `A`, `B`, `C`
the list is exactly `["A","B","C"]`, and an `error`-status edge in the
chain is excluded rather than contributing a null entry. -/
theorem merge_collect_exactly_done_urls :
    (∀ (gs : String → Option ShapeRec) (path : List PathNode),
        collectVideoUrls gs path = (path.drop 1).filterMap (eligibleUrl gs)) ∧
    collectVideoUrls chainShapes chainPath = ["A", "B", "C"] ∧
    collectVideoUrls chainShapes chainPathErr = ["A", "C"] := by
  refine ⟨fun gs path => ?_, by decide, by decide⟩
  unfold collectVideoUrls
  rw [foldl_collectStep]
  simp

/-! ## Claim C6 -/

/-- C6. Whenever the merge handler collects fewer than two eligible
URLs on a nonempty path, it rejects with a user-facing validation
outcome (`noVideos` or `tooFew`, each a `toast.error` in the source)
and the merge collaborator is never called — consequently none of the
node/edge creation that follows a successful merge call runs. -/
theorem merge_rejects_below_two_urls (framePath : String → List PathNode)
    (gs : String → Option ShapeRec) (fid : String)
    (hpath : (framePath fid).length ≠ 0)
    (hfew : (collectVideoUrls gs (framePath fid)).length < 2) :
    (handleMergeVideos true (some fid) framePath gs =
      if (collectVideoUrls gs (framePath fid)).length = 0 then MergeOutcome.noVideos
      else MergeOutcome.tooFew) ∧
    ∀ urls, handleMergeVideos true (some fid) framePath gs ≠ MergeOutcome.called urls := by
  constructor
  · by_cases hz : (collectVideoUrls gs (framePath fid)).length = 0
    · simp [handleMergeVideos, hpath, hz]
    · simp [handleMergeVideos, hpath, hz, hfew]
  · intro urls
    by_cases hz : (collectVideoUrls gs (framePath fid)).length = 0 <;>
      simp [handleMergeVideos, hpath, hz, hfew]

/-- C6 witness: a one-completed-clip path is rejected as `tooFew` and
the collaborator is not called. -/
theorem merge_rejects_below_two_urls_witness :
    (handleMergeVideos true (some "n1") onePath chainShapes =
      if (collectVideoUrls chainShapes (onePath "n1")).length = 0 then MergeOutcome.noVideos
      else MergeOutcome.tooFew) ∧
    ∀ urls, handleMergeVideos true (some "n1") onePath chainShapes ≠
      MergeOutcome.called urls :=
  merge_rejects_below_two_urls onePath chainShapes "n1" (by decide) (by decide)

/-! ## Arithmetic lemmas for clampDimensions -/

/-- Evenization yields an even number. -/
theorem evenize_even (x : Nat) : evenize x % 2 = 0 := by
  unfold evenize; split <;> omega

/-- Evenization never increases. -/
theorem evenize_le (x : Nat) : evenize x ≤ x := by
  unfold evenize; split <;> omega

/-- Evenization is monotone. -/
theorem evenize_mono {a b : Nat} (h : a ≤ b) : evenize a ≤ evenize b := by
  unfold evenize; split <;> split <;> omega

/-- Bounding half-up rounding of `num / den`. -/
theorem jsRound_le_iff (num den c : Nat) (hden : 0 < den) :
    jsRound num den ≤ c ↔ 2 * num + den < (c + 1) * (2 * den) := by
  unfold jsRound
  rw [← Nat.lt_succ_iff, Nat.div_lt_iff_lt_mul (by omega : 0 < 2 * den)]

/-- Half-up rounding is monotone in the numerator. -/
theorem jsRound_mono {num num' : Nat} (den : Nat) (h : num ≤ num') :
    jsRound num den ≤ jsRound num' den := by
  unfold jsRound
  exact Nat.div_le_div_right (by omega)

/-- `clampDimensions` acts componentwise as `clampScalar` with the
shared maximum. -/
theorem clampDimensions_eq (w h cap : Nat) :
    clampDimensions w h cap = (clampScalar w (max w h) cap, clampScalar h (max w h) cap) := by
  unfold clampDimensions clampScalar
  by_cases hc : cap < max w h
  · have hb : (decide (w > cap) || decide (h > cap)) = true := by
      simp only [Bool.or_eq_true, decide_eq_true_eq]
      exact lt_max_iff.mp hc
    simp [hb, hc]
  · have h1 : ¬ (w > cap) := fun hw => hc (lt_max_iff.mpr (Or.inl hw))
    have h2 : ¬ (h > cap) := fun hh => hc (lt_max_iff.mpr (Or.inr hh))
    simp [h1, h2, hc]

/-- Each clamped component is even. -/
theorem clampScalar_even (x m cap : Nat) : clampScalar x m cap % 2 = 0 := by
  unfold clampScalar; split <;> exact evenize_even _

/-- Each clamped component is at most the cap. -/
theorem clampScalar_le (x m cap : Nat) (hm : 0 < m) (hx : x ≤ m) :
    clampScalar x m cap ≤ cap := by
  unfold clampScalar
  split
  · refine le_trans (evenize_le _) ?_
    rw [jsRound_le_iff _ _ _ hm]
    have h1 : x * cap ≤ m * cap := Nat.mul_le_mul_right cap hx
    calc 2 * (x * cap) + m ≤ 2 * (m * cap) + m := by omega
      _ < 2 * (m * cap) + 2 * m := by omega
      _ = (cap + 1) * (2 * m) := by ring
  · rename_i hcm
    exact le_trans (evenize_le _) (le_trans hx (by omega))

/-- Clamped components shrink (weakly) as the cap shrinks. -/
theorem clampScalar_mono (x m : Nat) {capS capL : Nat} (hm : 0 < m)
    (hx : x ≤ m) (hcc : capS ≤ capL) :
    clampScalar x m capS ≤ clampScalar x m capL := by
  unfold clampScalar
  by_cases h1 : capS < m <;> by_cases h2 : capL < m <;> simp only [h1, h2, if_true, if_false]
  · exact evenize_mono (jsRound_mono m (Nat.mul_le_mul_left x hcc))
  · refine evenize_mono ?_
    rw [jsRound_le_iff _ _ _ hm]
    have h3 : x * capS ≤ x * m := Nat.mul_le_mul_left x (by omega)
    calc 2 * (x * capS) + m ≤ 2 * (x * m) + m := by omega
      _ < 2 * (x * m) + 2 * m := by omega
      _ = (x + 1) * (2 * m) := by ring
  · omega
  · exact le_rfl

/-- The request issued at cap `c` in scalar form. -/
theorem reqAt_eval (w h c : Nat) :
    reqAt (w, h) c = ⟨c, clampScalar w (max w h) c, clampScalar h (max w h) c⟩ := by
  unfold reqAt
  rw [clampDimensions_eq]

/-! ## Claim C8 -/

/-- C8. For positive source dimensions, with OOM-classified failures at
caps 1024 and 768 and success at cap 512, exactly three requests are
issued — one per cap, in cap order — the successful URL is returned,
every request's width and height is an even integer at most its cap and
equals the proportional-scaling-then-evenize formula
(`clampScalar` over `max w h`), and widths and heights are
non-increasing from cap to cap. -/
theorem degradation_caps_three_requests (w h : Nat) (e1 e2 url : String)
    (hw : 0 < w) (hh : 0 < h)
    (h1 : isRuntimeOOM e1 = true) (h2 : isRuntimeOOM e2 = true) (hu : url ≠ "") :
    (generateAngleChange (w, h) (degradeOuts e1 e2 url)).requests =
      [reqAt (w, h) 1024, reqAt (w, h) 768, reqAt (w, h) 512] ∧
    (generateAngleChange (w, h) (degradeOuts e1 e2 url)).outcome = Except.ok url ∧
    (∀ r ∈ [reqAt (w, h) 1024, reqAt (w, h) 768, reqAt (w, h) 512],
      r.width % 2 = 0 ∧ r.height % 2 = 0 ∧ r.width ≤ r.cap ∧ r.height ≤ r.cap ∧
      r.width = clampScalar w (max w h) r.cap ∧ r.height = clampScalar h (max w h) r.cap) ∧
    (reqAt (w, h) 768).width ≤ (reqAt (w, h) 1024).width ∧
    (reqAt (w, h) 512).width ≤ (reqAt (w, h) 768).width ∧
    (reqAt (w, h) 768).height ≤ (reqAt (w, h) 1024).height ∧
    (reqAt (w, h) 512).height ≤ (reqAt (w, h) 768).height := by
  have hm : 0 < max w h := lt_of_lt_of_le hw (le_max_left w h)
  have hxw : w ≤ max w h := le_max_left w h
  have hxh : h ≤ max w h := le_max_right w h
  refine ⟨?_, ?_, ?_, ?_, ?_, ?_, ?_⟩
  · simp [generateAngleChange, genLoop, MAX_DIMS, degradeOuts, h1, h2, hu]
  · simp [generateAngleChange, genLoop, MAX_DIMS, degradeOuts, h1, h2, hu]
  · intro r hr
    simp only [List.mem_cons, List.not_mem_nil, or_false] at hr
    rcases hr with hr | hr | hr <;> subst hr <;>
      rw [reqAt_eval] <;>
      exact ⟨clampScalar_even _ _ _, clampScalar_even _ _ _,
        clampScalar_le _ _ _ hm hxw, clampScalar_le _ _ _ hm hxh, rfl, rfl⟩
  · rw [reqAt_eval, reqAt_eval]
    exact clampScalar_mono w (max w h) hm hxw (by omega)
  · rw [reqAt_eval, reqAt_eval]
    exact clampScalar_mono w (max w h) hm hxw (by omega)
  · rw [reqAt_eval, reqAt_eval]
    exact clampScalar_mono h (max w h) hm hxh (by omega)
  · rw [reqAt_eval, reqAt_eval]
    exact clampScalar_mono h (max w h) hm hxh (by omega)

/-- C8 witness: a 1920x1080 source with concrete OOM messages at 1024
and 768 and success at 512. -/
theorem degradation_caps_three_requests_witness :
    (generateAngleChange (1920, 1080)
        (degradeOuts "RuntimeError: CUDA out of memory" "runtime error" "https://x/out.png")).requests =
      [reqAt (1920, 1080) 1024, reqAt (1920, 1080) 768, reqAt (1920, 1080) 512] ∧
    (generateAngleChange (1920, 1080)
        (degradeOuts "RuntimeError: CUDA out of memory" "runtime error" "https://x/out.png")).outcome =
      Except.ok "https://x/out.png" ∧
    (∀ r ∈ [reqAt (1920, 1080) 1024, reqAt (1920, 1080) 768, reqAt (1920, 1080) 512],
      r.width % 2 = 0 ∧ r.height % 2 = 0 ∧ r.width ≤ r.cap ∧ r.height ≤ r.cap ∧
      r.width = clampScalar 1920 (max 1920 1080) r.cap ∧
      r.height = clampScalar 1080 (max 1920 1080) r.cap) ∧
    (reqAt (1920, 1080) 768).width ≤ (reqAt (1920, 1080) 1024).width ∧
    (reqAt (1920, 1080) 512).width ≤ (reqAt (1920, 1080) 768).width ∧
    (reqAt (1920, 1080) 768).height ≤ (reqAt (1920, 1080) 1024).height ∧
    (reqAt (1920, 1080) 512).height ≤ (reqAt (1920, 1080) 768).height :=
  degradation_caps_three_requests 1920 1080 "RuntimeError: CUDA out of memory"
    "runtime error" "https://x/out.png" (by decide) (by decide) (by decide) (by decide)
    (by decide)

/-! ## Claim C10 -/

/-- Unfolding step of the rotation loop at a failing attempt: in both
failure classes the loop rotates the cursor, records the last error and
continues with the remaining attempts. -/
theorem gpLoop_cons_error {α : Type} (n : Nat) (outs : Nat → Except String α)
    (x : Nat) (xs : List Nat) (cur : Nat) (le : Option String) (acc : List Nat)
    (m : String) (hx : outs x = Except.error m) :
    gpLoop n outs (x :: xs) cur le acc =
      gpLoop n outs xs ((cur + 1) % n) (some m) (acc ++ [cur % n]) := by
  conv_lhs => rw [gpLoop]
  rw [hx]
  simp

/-- When every remaining attempt fails, the rotation loop ends with the
aggregate error naming the message of the last attempt. -/
theorem gpLoop_allfail {α : Type} (n : Nat) (outs : Nat → Except String α)
    (msgs : Nat → String) :
    ∀ (l : List Nat) (a : Nat), l.getLast? = some a →
      (∀ b ∈ l, outs b = Except.error (msgs b)) →
      ∀ (cur : Nat) (le : Option String) (acc : List Nat),
        (gpLoop n outs l cur le acc).outcome = Except.error (aggMsg n (some (msgs a))) := by
  intro l
  induction l with
  | nil => intro a hl; simp at hl
  | cons x xs ih =>
    intro a hl hout cur le acc
    have hx : outs x = Except.error (msgs x) := hout x (List.mem_cons_self x xs)
    cases xs with
    | nil =>
      have hax : x = a := by simpa using hl
      subst hax
      rw [gpLoop_cons_error n outs x [] cur le acc (msgs x) hx]
      simp [gpLoop]
    | cons y ys =>
      rw [List.getLast?_cons_cons] at hl
      rw [gpLoop_cons_error n outs x (y :: ys) cur le acc (msgs x) hx]
      exact ih a hl (fun b hb => hout b (List.mem_cons_of_mem x hb)) _ _ _

/-- The last element of `List.range n` for positive `n`. -/
theorem range_getLast? (n : Nat) (hn : 0 < n) :
    (List.range n).getLast? = some (n - 1) := by
  obtain ⟨m, rfl⟩ : ∃ m, n = m + 1 := ⟨n - 1, by omega⟩
  rw [List.range_succ]
  simp

/-- Unfolding step of the degradation loop at an OOM-classified failure:
the loop records the request at the failing cap and continues with the
remaining caps. -/
theorem genLoop_cons_oom (dims : Nat × Nat)
    (capOuts : Nat → Except String (Option String)) (cap : Nat) (rest : List Nat)
    (le : Option String) (acc : List GenReq) (m : String)
    (hcap : capOuts cap = Except.error m) (hm : isRuntimeOOM m = true) :
    genLoop dims capOuts (cap :: rest) le acc =
      genLoop dims capOuts rest (some m) (acc ++ [reqAt dims cap]) := by
  conv_lhs => rw [genLoop]
  rw [hcap]
  simp [hm]

/-- C10. When every credential fails with an OOM-classified
(transient-resource) message, the rotation loop's aggregate
"All N HF tokens failed" error embeds the last underlying message, this
aggregate is itself classified OOM by the substring classifier, and in
consequence the resolution-degradation loop treats it as retryable: it
proceeds from the failing cap to the next smaller cap instead of
aborting. -/
theorem aggregate_oom_classified_retryable (n : Nat)
    (outs : Nat → Except String (Option String)) (msgs : Nat → String) (cur0 : Nat)
    (hn : 0 < n)
    (houts : ∀ a, a < n → outs a = Except.error (msgs a))
    (hoom : isRuntimeOOM (msgs (n - 1)) = true) :
    (gradioPredict n outs cur0).outcome = Except.error (aggMsg n (some (msgs (n - 1)))) ∧
    isRuntimeOOM (aggMsg n (some (msgs (n - 1)))) = true ∧
    (∀ (w h : Nat) (capOuts : Nat → Except String (Option String)) (c : Nat)
        (rest : List Nat) (le : Option String) (acc : List GenReq),
      capOuts c = Except.error (aggMsg n (some (msgs (n - 1)))) →
      genLoop (w, h) capOuts (c :: rest) le acc =
        genLoop (w, h) capOuts rest (some (aggMsg n (some (msgs (n - 1)))))
          (acc ++ [reqAt (w, h) c])) := by
  have hagg : isRuntimeOOM (aggMsg n (some (msgs (n - 1)))) = true := by
    have := isRuntimeOOM_append
      ("All " ++ toString n ++ " HF tokens failed. Last error: ") (msgs (n - 1)) hoom
    simpa [aggMsg] using this
  refine ⟨?_, hagg, ?_⟩
  · unfold gradioPredict
    have hnz : ¬ n = 0 := by omega
    simp only [hnz, if_false]
    exact gpLoop_allfail n outs msgs (List.range n) (n - 1) (range_getLast? n hn)
      (fun b hb => houts b (List.mem_range.mp hb)) cur0 none []
  · intro w h capOuts c rest le acc hcap
    exact genLoop_cons_oom (w, h) capOuts c rest le acc _ hcap hagg

/-- C10 witness: a 2-token pool where both attempts fail with a CUDA
OOM message. -/
theorem aggregate_oom_classified_retryable_witness :
    (gradioPredict 2 (fun _ => (Except.error "RuntimeError: CUDA out of memory" :
        Except String (Option String))) 0).outcome =
      Except.error (aggMsg 2 (some "RuntimeError: CUDA out of memory")) ∧
    isRuntimeOOM (aggMsg 2 (some "RuntimeError: CUDA out of memory")) = true ∧
    (∀ (w h : Nat) (capOuts : Nat → Except String (Option String)) (c : Nat)
        (rest : List Nat) (le : Option String) (acc : List GenReq),
      capOuts c = Except.error (aggMsg 2 (some "RuntimeError: CUDA out of memory")) →
      genLoop (w, h) capOuts (c :: rest) le acc =
        genLoop (w, h) capOuts rest (some (aggMsg 2 (some "RuntimeError: CUDA out of memory")))
          (acc ++ [reqAt (w, h) c])) :=
  aggregate_oom_classified_retryable 2
    (fun _ => Except.error "RuntimeError: CUDA out of memory")
    (fun _ => "RuntimeError: CUDA out of memory") 0
    (by decide) (fun _ _ => rfl) (by decide)
